import Mathlib

/-!
Shallow embedding of the PQAnalysis simulation-cell geometry engine over
exact real arithmetic.  The definitions below are translated from
`cpp/src/cell/cell.cpp`, `cpp/include/cell/cell.hpp`, the float variant of
the same class (`Cell::_setup_box_matrix`, `Cell::image`, `Cell::is_vacuum`
in the flat-array implementation) and the pybind11 binding
(`cpp/src/cell/cell_py.cpp`).  Floating-point numbers are modelled as real
numbers; C `round` (round half away from zero) is modelled exactly.
-/

open scoped Classical

noncomputable section

namespace PQCell

/-- Degrees to radians, as the source writes it: `angle / 180.0 * M_PI`. -/
def deg2rad (x : ℝ) : ℝ := x / 180 * Real.pi

/-- C `std::round`: round to nearest, halfway cases away from zero. -/
def cround (x : ℝ) : ℤ := if 0 ≤ x then ⌊x + 1 / 2⌋ else -⌊-x + 1 / 2⌋

/-- The state of a `Cell`: `_box_lengths`, `_box_angles`, `_box_matrix`. -/
structure Cell where
  box_lengths : Fin 3 → ℝ
  box_angles : Fin 3 → ℝ
  box_matrix : Matrix (Fin 3) (Fin 3) ℝ

/-- `Cell::_setup_box_matrix` (cell.cpp lines 26-56): the upper-triangular
basis matrix built from lengths and angles, trig evaluated after
degree-to-radian conversion. -/
def setup_box_matrix (lengths angles : Fin 3 → ℝ) : Matrix (Fin 3) (Fin 3) ℝ :=
  let cos_alpha := Real.cos (deg2rad (angles 0))
  let cos_beta := Real.cos (deg2rad (angles 1))
  let cos_gamma := Real.cos (deg2rad (angles 2))
  let sin_gamma := Real.sin (deg2rad (angles 2))
  let sin_beta := Real.sin (deg2rad (angles 1))
  let a := lengths 0
  let b := lengths 1
  let c := lengths 2
  Matrix.of
    ![![a, b * cos_gamma, c * cos_beta],
      ![0, b * sin_gamma, c * (cos_alpha - cos_beta * cos_gamma) / sin_gamma],
      ![0, 0,
        c * Real.sqrt (sin_beta * sin_beta -
          (cos_alpha - cos_beta * cos_gamma) *
            (cos_alpha - cos_beta * cos_gamma) / (sin_gamma * sin_gamma))]]

/-- The six-argument constructor `Cell::Cell(a, b, c, alpha, beta, gamma)`:
stores lengths and angles and derives the basis matrix. -/
def mkCell (a b c alpha beta gamma : ℝ) : Cell :=
  { box_lengths := ![a, b, c]
    box_angles := ![alpha, beta, gamma]
    box_matrix := setup_box_matrix ![a, b, c] ![alpha, beta, gamma] }

/-- The no-argument constructor `Cell::Cell()` (cell.cpp lines 5-10):
lengths, angles and matrix all zero-initialized. -/
def defaultCell : Cell :=
  { box_lengths := ![0, 0, 0]
    box_angles := ![0, 0, 0]
    box_matrix := Matrix.of ![![0, 0, 0], ![0, 0, 0], ![0, 0, 0]] }

/-- `Cell::volume` (cell.cpp lines 93-102): the 3x3 determinant written out
by cofactor expansion, exactly as in the source. -/
def volume (cell : Cell) : ℝ :=
  cell.box_matrix 0 0 * cell.box_matrix 1 1 * cell.box_matrix 2 2 +
    cell.box_matrix 0 1 * cell.box_matrix 1 2 * cell.box_matrix 2 0 +
    cell.box_matrix 0 2 * cell.box_matrix 1 0 * cell.box_matrix 2 1 -
    cell.box_matrix 0 2 * cell.box_matrix 1 1 * cell.box_matrix 2 0 -
    cell.box_matrix 0 1 * cell.box_matrix 1 0 * cell.box_matrix 2 2 -
    cell.box_matrix 0 0 * cell.box_matrix 1 2 * cell.box_matrix 2 1

/-- `Cell::is_vacuum` of the double-precision variant (cell.cpp lines
104-108): the volume is exactly zero. -/
def is_vacuum (cell : Cell) : Prop := volume cell = 0

/-- `std::numeric_limits<float>::max()`, i.e. `(2 - 2^-23) * 2^127`. -/
def fltMax : ℝ := (2 - (1 / 2) ^ 23) * 2 ^ 127

/-- `Cell::is_vacuum` of the float variant: the volume exceeds
`FLT_MAX * 0.99^4`. -/
def is_vacuum_sentinel (cell : Cell) : Prop :=
  volume cell > fltMax * 0.99 * 0.99 * 0.99 * 0.99

/-- Orthorhombic fast-path discriminator of `Cell::image` (cell.cpp lines
114-117): all three stored angles are exactly 90. -/
def is_orthorhombic (cell : Cell) : Prop :=
  cell.box_angles 0 = 90 ∧ cell.box_angles 1 = 90 ∧ cell.box_angles 2 = 90

/-- Fast path of `Cell::image` for one position (cell.cpp lines 119-130):
per-axis wrap `pos[j] - lengths[j] * round(pos[j] / lengths[j])`. -/
def image_ortho (lengths : Fin 3 → ℝ) (p : Fin 3 → ℝ) : Fin 3 → ℝ :=
  fun j => p j - lengths j * (cround (p j / lengths j) : ℝ)

/-- General path of `Cell::image` for one position (cell.cpp lines 131-163):
`fractional[j] = sum_k pos[k] * M[k][j]`, each component has its `round`
subtracted, then `image[j] = sum_k fractional[k] * M[j][k]`. -/
def image_general (M : Matrix (Fin 3) (Fin 3) ℝ) (p : Fin 3 → ℝ) : Fin 3 → ℝ :=
  let frac : Fin 3 → ℝ := fun j => ∑ k, p k * M k j
  let wrapped : Fin 3 → ℝ := fun j => frac j - (cround (frac j) : ℝ)
  fun j => ∑ k, wrapped k * M j k

/-- `Cell::image` on a batch (cell.cpp lines 110-167): the fast path when
all three angles are exactly 90, the general path otherwise. -/
def image (cell : Cell) (pos : List (Fin 3 → ℝ)) : List (Fin 3 → ℝ) :=
  if is_orthorhombic cell then pos.map (image_ortho cell.box_lengths)
  else pos.map (image_general cell.box_matrix)

/-- `Cell::init_from_box_matrix` (cell.cpp lines 169-218): store the given
matrix verbatim, recompute lengths as column norms and angles as `acos` of
normalized column dot products converted to degrees.  No validation is
performed. -/
def init_from_box_matrix (M : Matrix (Fin 3) (Fin 3) ℝ) : Cell :=
  let lengths : Fin 3 → ℝ := fun j =>
    Real.sqrt (M 0 j * M 0 j + M 1 j * M 1 j + M 2 j * M 2 j)
  { box_lengths := lengths
    box_angles :=
      ![Real.arccos ((M 0 1 * M 0 2 + M 1 1 * M 1 2 + M 2 1 * M 2 2) /
          (lengths 1 * lengths 2)) * 180 / Real.pi,
        Real.arccos ((M 0 0 * M 0 2 + M 1 0 * M 1 2 + M 2 0 * M 2 2) /
          (lengths 0 * lengths 2)) * 180 / Real.pi,
        Real.arccos ((M 0 0 * M 0 1 + M 1 0 * M 1 1 + M 2 0 * M 2 1) /
          (lengths 0 * lengths 1)) * 180 / Real.pi]
    box_matrix := M }

/-- The pybind11 `init_from_box_matrix` binding (cell_py.cpp): it checks
only that the input is a 3x3 array (raising a runtime error otherwise) and
then calls `Cell::init_from_box_matrix`; it performs no domain check. -/
def init_from_box_matrix_binding (m : List (List ℝ)) : Except String Cell :=
  if m.length = 3 ∧ ∀ row ∈ m, row.length = 3 then
    .ok (init_from_box_matrix
      (Matrix.of fun i j : Fin 3 => ((m.getD i.val []).getD j.val 0)))
  else .error "box_matrix must be a 3x3 array"

/-- `Cell::isclose` of the float variant (cell.hpp lines 29-64): `true`
when both cells are vacuum (the designated short-circuit), otherwise the
two-sided tolerance comparison of each angle and each length. -/
def isclose (c1 c2 : Cell) (rtol atol : ℝ) : Prop :=
  (is_vacuum_sentinel c1 ∧ is_vacuum_sentinel c2) ∨
    ∀ i : Fin 3,
      |c1.box_angles i - c2.box_angles i| ≤
        max (rtol * max |c1.box_angles i| |c2.box_angles i|) atol ∧
      |c1.box_lengths i - c2.box_lengths i| ≤
        max (rtol * max |c1.box_lengths i| |c2.box_lengths i|) atol

/-- The corner half-values of `Cell::bounding_edges`: index 0 maps to
`-0.5`, index 1 to `0.5`. -/
def cvals (n : ℕ) : ℝ := if n = 0 then -(1 / 2) else 1 / 2

/-- `Cell::bounding_edges` (cell.cpp lines 58-91): corner `4*i + 2*j + k`
at column `col` is `M[0][col]*x + M[1][col]*y + M[2][col]*z` for
`(x, y, z)` the half-values chosen by `(i, j, k)`. -/
def bounding_edges (cell : Cell) (idx : Fin 8) (col : Fin 3) : ℝ :=
  let x := cvals (idx.val / 4)
  let y := cvals (idx.val / 2 % 2)
  let z := cvals (idx.val % 2)
  cell.box_matrix 0 col * x + cell.box_matrix 1 col * y +
    cell.box_matrix 2 col * z

/-- The corner the spec describes: the matrix-vector product `M · v` for
`v` the column of half-values selected by `(i, j, k)`.  Modelled from the
spec's words for comparison with `bounding_edges`. -/
def corner_spec (M : Matrix (Fin 3) (Fin 3) ℝ) (i j k : ℕ) : Fin 3 → ℝ :=
  M.mulVec ![cvals i, cvals j, cvals k]

/-- Setter `Cell::set_x`: writes `_box_lengths[0]` only. -/
def set_x (cell : Cell) (v : ℝ) : Cell :=
  { cell with box_lengths := Function.update cell.box_lengths 0 v }

/-- Setter `Cell::set_y`: writes `_box_lengths[1]` only. -/
def set_y (cell : Cell) (v : ℝ) : Cell :=
  { cell with box_lengths := Function.update cell.box_lengths 1 v }

/-- Setter `Cell::set_z`: writes `_box_lengths[2]` only. -/
def set_z (cell : Cell) (v : ℝ) : Cell :=
  { cell with box_lengths := Function.update cell.box_lengths 2 v }

/-- Setter `Cell::set_alpha`: writes `_box_angles[0]` only. -/
def set_alpha (cell : Cell) (v : ℝ) : Cell :=
  { cell with box_angles := Function.update cell.box_angles 0 v }

/-- Setter `Cell::set_beta`: writes `_box_angles[1]` only. -/
def set_beta (cell : Cell) (v : ℝ) : Cell :=
  { cell with box_angles := Function.update cell.box_angles 1 v }

/-- Setter `Cell::set_gamma`: writes `_box_angles[2]` only. -/
def set_gamma (cell : Cell) (v : ℝ) : Cell :=
  { cell with box_angles := Function.update cell.box_angles 2 v }

/-- Bulk setter `Cell::set_box_lengths`: replaces `_box_lengths` only. -/
def set_box_lengths (cell : Cell) (v : Fin 3 → ℝ) : Cell :=
  { cell with box_lengths := v }

/-- Bulk setter `Cell::set_box_angles`: replaces `_box_angles` only. -/
def set_box_angles (cell : Cell) (v : Fin 3 → ℝ) : Cell :=
  { cell with box_angles := v }

/-- Bulk setter `Cell::set_box_matrix`: replaces `_box_matrix` only. -/
def set_box_matrix (cell : Cell) (v : Matrix (Fin 3) (Fin 3) ℝ) : Cell :=
  { cell with box_matrix := v }

/-- The default length argument of the pybind11 float-variant constructor:
`cbrt(std::numeric_limits<float>::max()) * 0.99`. -/
def sentinelLength : ℝ := fltMax ^ ((1 : ℝ) / 3) * 0.99

/-- The cell the pybind11 float-variant binding builds when no arguments
are given: lengths all `sentinelLength`, angles all 90. -/
def sentinelDefaultCell : Cell :=
  mkCell sentinelLength sentinelLength sentinelLength 90 90 90

/-! ### Shared evaluation lemmas -/

/-- 90 degrees is `pi / 2` radians. -/
lemma deg2rad_ninety : deg2rad 90 = Real.pi / 2 := by
  unfold deg2rad; ring

/-- `std::round` of a value strictly inside `(-1/2, 1/2)` is zero. -/
lemma cround_eq_zero {x : ℝ} (h : |x| < 1 / 2) : cround x = 0 := by
  rcases abs_lt.1 h with ⟨h1, h2⟩
  unfold cround
  split
  · rw [Int.floor_eq_zero_iff, Set.mem_Ico]
    constructor <;> linarith
  · rw [neg_eq_zero, Int.floor_eq_zero_iff, Set.mem_Ico]
    constructor <;> linarith

/-- `std::round` of zero is zero. -/
lemma cround_zero : cround (0 : ℝ) = 0 := by
  rw [cround, if_pos le_rfl]
  norm_num [Int.floor_eq_iff]

/-- For angles exactly (90, 90, 90) the derived basis matrix is diagonal
with the lengths on the diagonal. -/
lemma setup_box_matrix_ortho (a b c : ℝ) :
    setup_box_matrix ![a, b, c] ![90, 90, 90] =
      Matrix.of ![![a, 0, 0], ![0, b, 0], ![0, 0, c]] := by
  ext i j
  fin_cases i <;> fin_cases j <;>
    simp [setup_box_matrix, deg2rad_ninety, Real.cos_pi_div_two,
      Real.sin_pi_div_two]

/-- A cell constructed with angles (90, 90, 90) takes the fast path. -/
lemma is_orthorhombic_mkCell (a b c : ℝ) :
    is_orthorhombic (mkCell a b c 90 90 90) := by
  refine ⟨?_, ?_, ?_⟩ <;> simp [mkCell, is_orthorhombic]

/-- `Cell::image` on a 90-degree cell is the per-position fast path. -/
lemma image_mkCell_ortho (a b c : ℝ) (P : List (Fin 3 → ℝ)) :
    image (mkCell a b c 90 90 90) P = P.map (image_ortho ![a, b, c]) := by
  rw [image, if_pos (is_orthorhombic_mkCell a b c)]
  rfl

/-- The fast path on the (10,10,10) box maps (12, -6, 5) to (2, 4, -5):
`round` sends 1.2 to 1, -0.6 to -1 and the halfway case 0.5 to 1 (away
from zero). -/
lemma image_ortho_ten_eval :
    image_ortho ![10, 10, 10] ![12, -6, 5] = ![(2 : ℝ), 4, -5] := by
  funext j
  fin_cases j
  · have h : cround ((12 : ℝ) / 10) = 1 := by
      rw [cround, if_pos (by norm_num)]
      norm_num [Int.floor_eq_iff]
    simp [image_ortho, h]
    norm_num
  · have h : cround ((-6 : ℝ) / 10) = -1 := by
      rw [cround, if_neg (by norm_num)]
      norm_num [Int.floor_eq_iff]
    simp [image_ortho, h]
    norm_num
  · have h : cround ((5 : ℝ) / 10) = 1 := by
      rw [cround, if_pos (by norm_num)]
      norm_num [Int.floor_eq_iff]
    simp [image_ortho, h]
    norm_num

/-- `Cell::image` of the (10,10,10,90,90,90) cell at the batch
[(12, -6, 5)]. -/
lemma image_cell_ten_eval :
    image (mkCell 10 10 10 90 90 90) [![12, -6, 5]] = [![(2 : ℝ), 4, -5]] := by
  rw [image_mkCell_ortho]
  simp [image_ortho_ten_eval]

/-- The general (triclinic) path applied to the diagonal (10,10,10) basis
matrix collapses (12, -6, 5) to the origin: it scales positions by the
matrix instead of dividing by it, so every scaled component is an integer
and the wrap subtracts everything. -/
lemma image_general_ten_eval :
    image_general (mkCell 10 10 10 90 90 90).box_matrix ![12, -6, 5] =
      ![(0 : ℝ), 0, 0] := by
  have hM : (mkCell 10 10 10 90 90 90).box_matrix =
      Matrix.of ![![10, 0, 0], ![0, 10, 0], ![0, 0, 10]] :=
    setup_box_matrix_ortho 10 10 10
  have h120 : cround (120 : ℝ) = 120 := by
    rw [cround, if_pos (by norm_num)]
    norm_num [Int.floor_eq_iff]
  have h60 : cround (-60 : ℝ) = -60 := by
    rw [cround, if_neg (by norm_num)]
    norm_num [Int.floor_eq_iff]
  have h50 : cround (50 : ℝ) = 50 := by
    rw [cround, if_pos (by norm_num)]
    norm_num [Int.floor_eq_iff]
  funext j
  rw [image_general, hM]
  fin_cases j <;>
    simp [Fin.sum_univ_three] <;>
    norm_num [h120, h60, h50]

end PQCell

namespace PQCell

/-- Claim C1: for a cell whose three angles are exactly 90 degrees, the
orthorhombic fast path and the general triclinic path of `Cell::image` are
claimed to agree.  They do not: on the (10,10,10,90,90,90) cell the general
path multiplies positions by the basis matrix (not its inverse), so on the
batch [(12, -6, 5)] it returns (0, 0, 0) while the fast path returns
(2, 4, -5).  The code's own comment says the general path converts to
fractional coordinates, which `pos * M` does not. -/
theorem c1_general_path_disagrees_with_fast_path :
    image_general (mkCell 10 10 10 90 90 90).box_matrix ![12, -6, 5] =
        ![(0 : ℝ), 0, 0] ∧
      image_ortho (mkCell 10 10 10 90 90 90).box_lengths ![12, -6, 5] =
        ![(2 : ℝ), 4, -5] ∧
      image_general (mkCell 10 10 10 90 90 90).box_matrix ![12, -6, 5] ≠
        image_ortho (mkCell 10 10 10 90 90 90).box_lengths ![12, -6, 5] := by
  have hL : (mkCell 10 10 10 90 90 90).box_lengths = ![10, 10, 10] := rfl
  refine ⟨image_general_ten_eval, by rw [hL]; exact image_ortho_ten_eval, ?_⟩
  rw [image_general_ten_eval, hL, image_ortho_ten_eval]
  intro h
  have := congrFun h 0
  simp at this

/-- Claim C2: the spec says the (10,10,10,90,90,90) cell images (12, -6, 5)
to (2, 4, 5).  The code images it to (2, 4, -5): the z component 5 sits
exactly on the half-boundary 5/10 = 0.5 and `std::round` rounds half away
from zero, giving 5 - 10 = -5. -/
theorem c2_counterexample :
    image (mkCell 10 10 10 90 90 90) [![12, -6, 5]] ≠ [![(2 : ℝ), 4, 5]] := by
  rw [image_cell_ten_eval]
  intro h
  have h1 : (![(2 : ℝ), 4, -5]) = ![(2 : ℝ), 4, 5] := by
    simpa using h
  have := congrFun h1 2
  simp at this
  norm_num at this

/-- Claim C2 (amended): the (10,10,10,90,90,90) cell images the position
(12, -6, 5) to (2, 4, -5): x and y wrap by the nearest multiple of 10 and
the halfway z component 0.5 rounds away from zero. -/
theorem c2_amended :
    image (mkCell 10 10 10 90 90 90) [![12, -6, 5]] = [![(2 : ℝ), 4, -5]] :=
  image_cell_ten_eval

/-- On the (10,10,10) box the position 5 wraps to -5 (half away from
zero). -/
lemma image_cell_five_eval :
    image (mkCell 10 10 10 90 90 90) [![5, 0, 0]] = [![(-5 : ℝ), 0, 0]] := by
  rw [image_mkCell_ortho]
  have h5 : cround ((5 : ℝ) / 10) = 1 := by
    rw [cround, if_pos (by norm_num)]
    norm_num [Int.floor_eq_iff]
  have h0 : cround ((0 : ℝ) / 10) = 0 := by
    rw [cround, if_pos (by norm_num)]
    norm_num [Int.floor_eq_iff]
  have : image_ortho ![10, 10, 10] ![5, 0, 0] = ![(-5 : ℝ), 0, 0] := by
    funext j
    fin_cases j
    · simp [image_ortho, h5]
      norm_num
    · simp [image_ortho, cround_zero]
    · simp [image_ortho, cround_zero]
  simp [this]

/-- On the (10,10,10) box the position -5 wraps back to 5. -/
lemma image_cell_neg_five_eval :
    image (mkCell 10 10 10 90 90 90) [![-5, 0, 0]] = [![(5 : ℝ), 0, 0]] := by
  rw [image_mkCell_ortho]
  have h5 : cround ((-5 : ℝ) / 10) = -1 := by
    rw [cround, if_neg (by norm_num)]
    norm_num [Int.floor_eq_iff]
  have h0 : cround ((0 : ℝ) / 10) = 0 := by
    rw [cround, if_pos (by norm_num)]
    norm_num [Int.floor_eq_iff]
  have : image_ortho ![10, 10, 10] ![-5, 0, 0] = ![(5 : ℝ), 0, 0] := by
    funext j
    fin_cases j
    · simp [image_ortho, h5]
      norm_num
    · simp [image_ortho, cround_zero]
    · simp [image_ortho, cround_zero]
  simp [this]

/-- Claim C3: re-imaging is claimed idempotent for every cell and batch.
It is not: on the (10,10,10,90,90,90) cell the position 5 lies exactly on
the half-boundary, images to -5 (round half away from zero), and -5 images
back to 5, so `image(image(P))` differs from `image(P)`. -/
theorem c3_counterexample :
    image (mkCell 10 10 10 90 90 90)
        (image (mkCell 10 10 10 90 90 90) [![5, 0, 0]]) ≠
      image (mkCell 10 10 10 90 90 90) [![5, 0, 0]] := by
  rw [image_cell_five_eval, image_cell_neg_five_eval]
  intro h
  have h1 : (![(5 : ℝ), 0, 0]) = ![(-5 : ℝ), 0, 0] := by simpa using h
  have := congrFun h1 0
  simp at this
  norm_num at this

/-- Claim C3 (amended): on the orthorhombic fast path with positive
lengths, re-imaging is idempotent for every batch whose scaled coordinates
stay strictly away from the half-integer boundary, i.e. whose per-axis
round residual is strictly inside (-1/2, 1/2); exactly at the boundary the
image alternates between the two equivalent half-box representatives (and
the triclinic path, whose transform pair is not an inverse pair, has no
idempotence at all). -/
theorem c3_amended (cell : Cell) (h90 : is_orthorhombic cell)
    (hL : ∀ j, 0 < cell.box_lengths j) (P : List (Fin 3 → ℝ))
    (hP : ∀ p ∈ P, ∀ j,
      |p j / cell.box_lengths j -
        (cround (p j / cell.box_lengths j) : ℝ)| < 1 / 2) :
    image cell (image cell P) = image cell P := by
  simp only [image, if_pos h90, List.map_map]
  refine List.map_congr_left ?_
  intro p hp
  funext j
  have hnz : cell.box_lengths j ≠ 0 := ne_of_gt (hL j)
  have hr := hP p hp j
  simp only [Function.comp_apply, image_ortho]
  have hq : (p j - cell.box_lengths j *
        (cround (p j / cell.box_lengths j) : ℝ)) / cell.box_lengths j =
      p j / cell.box_lengths j - (cround (p j / cell.box_lengths j) : ℝ) := by
    field_simp
  rw [hq, cround_eq_zero hr]
  simp

/-- Witness for C3 (amended) at the (10,10,10,90,90,90) cell and the batch
[(12, -6, 3)], whose scaled coordinates 1.2, -0.6 and 0.3 are away from
the half-boundary. -/
theorem c3_amended_witness :
    is_orthorhombic (mkCell 10 10 10 90 90 90) ∧
      (∀ j, 0 < (mkCell 10 10 10 90 90 90).box_lengths j) ∧
      (∀ p ∈ [![(12 : ℝ), -6, 3]], ∀ j,
        |p j / (mkCell 10 10 10 90 90 90).box_lengths j -
          (cround (p j / (mkCell 10 10 10 90 90 90).box_lengths j) : ℝ)| <
            1 / 2) ∧
      image (mkCell 10 10 10 90 90 90)
          (image (mkCell 10 10 10 90 90 90) [![(12 : ℝ), -6, 3]]) =
        image (mkCell 10 10 10 90 90 90) [![(12 : ℝ), -6, 3]] := by
  have hL : (mkCell 10 10 10 90 90 90).box_lengths = ![10, 10, 10] := rfl
  have hpos : ∀ j, 0 < (mkCell 10 10 10 90 90 90).box_lengths j := by
    intro j
    rw [hL]
    fin_cases j <;> norm_num
  have h12 : cround ((12 : ℝ) / 10) = 1 := by
    rw [cround, if_pos (by norm_num)]
    norm_num [Int.floor_eq_iff]
  have h6 : cround ((-6 : ℝ) / 10) = -1 := by
    rw [cround, if_neg (by norm_num)]
    norm_num [Int.floor_eq_iff]
  have h3 : cround ((3 : ℝ) / 10) = 0 := by
    rw [cround, if_pos (by norm_num)]
    norm_num [Int.floor_eq_iff]
  have hres : ∀ p ∈ [![(12 : ℝ), -6, 3]], ∀ j,
      |p j / (mkCell 10 10 10 90 90 90).box_lengths j -
        (cround (p j / (mkCell 10 10 10 90 90 90).box_lengths j) : ℝ)| <
          1 / 2 := by
    intro p hp j
    simp only [List.mem_singleton] at hp
    subst hp
    rw [hL]
    fin_cases j
    · simp [h12]
      rw [abs_lt]
      constructor <;> norm_num
    · simp [h6]
      rw [abs_lt]
      constructor <;> norm_num
    · simp [h3]
      rw [abs_lt]
      constructor <;> norm_num
  exact ⟨is_orthorhombic_mkCell 10 10 10, hpos, hres,
    c3_amended _ (is_orthorhombic_mkCell 10 10 10) hpos _ hres⟩

end PQCell

namespace PQCell

/-- Claim C4: the spec says corner `4i+2j+k` of `bounding_edges` is the
matrix-vector product `M * v`.  The code computes the row vector `v * M`
(equivalently the product of the transposed matrix with `v`), which differs
for any non-symmetric basis matrix: with the shear matrix
[[1,1,0],[0,1,0],[0,0,1]] installed via `init_from_box_matrix`, corner 0
has second component -1 while `M * v` has second component -1/2. -/
theorem c4_counterexample :
    bounding_edges
        (init_from_box_matrix (Matrix.of ![![1, 1, 0], ![0, 1, 0], ![0, 0, 1]]))
        0 1 ≠
      corner_spec (Matrix.of ![![1, 1, 0], ![0, 1, 0], ![0, 0, 1]]) 0 0 0 1 := by
  have hM : (init_from_box_matrix
      (Matrix.of ![![1, 1, 0], ![0, 1, 0], ![0, 0, 1]])).box_matrix =
      Matrix.of ![![1, 1, 0], ![0, 1, 0], ![0, 0, 1]] := rfl
  simp only [bounding_edges, corner_spec, hM, Matrix.mulVec, Matrix.dotProduct,
    Fin.sum_univ_three]
  norm_num [cvals]

/-- Claim C4 (amended): `bounding_edges` returns 8 corners where the corner
at index `4i+2j+k` is the product of the TRANSPOSED basis matrix with the
half-value column vector `v` (the code forms `v * M`, not `M * v`); in
particular, for the unit-cube cell (lengths 1, angles 90) the result is
exactly the 8 points with components in {-0.5, 0.5} in that fixed
binary-counter order. -/
theorem c4_amended :
    (∀ (cell : Cell) (i j k : Fin 2),
      (fun col => bounding_edges cell ⟨4 * i.val + 2 * j.val + k.val, by omega⟩ col) =
        Matrix.mulVec (Matrix.transpose cell.box_matrix) ![cvals i.val, cvals j.val, cvals k.val]) ∧
    ∀ i j k : Fin 2,
      (fun col => bounding_edges (mkCell 1 1 1 90 90 90)
          ⟨4 * i.val + 2 * j.val + k.val, by omega⟩ col) =
        ![cvals i.val, cvals j.val, cvals k.val] := by
  constructor
  · intro cell i j k
    funext col
    fin_cases i <;> fin_cases j <;> fin_cases k <;>
      simp [bounding_edges, Matrix.mulVec, Matrix.dotProduct,
        Fin.sum_univ_three, Matrix.transpose_apply]
  · intro i j k
    have hM : (mkCell 1 1 1 90 90 90).box_matrix =
        Matrix.of ![![1, 0, 0], ![0, 1, 0], ![0, 0, 1]] :=
      setup_box_matrix_ortho 1 1 1
    funext col
    fin_cases i <;> fin_cases j <;> fin_cases k <;> fin_cases col <;>
      simp [bounding_edges, hM, cvals, Matrix.vecHead, Matrix.vecTail]

end PQCell

namespace PQCell

/-- Claim C8: the spec says `init_from_box_matrix` signals a domain error
whenever a column has zero norm (or the acos ratio leaves [-1,1]).  The
binding accepts the all-zero matrix - every column has zero Euclidean
norm - without any error: only the 3x3 shape is ever validated. -/
theorem c8_counterexample :
    (init_from_box_matrix_binding
      [[0, 0, 0], [0, 0, 0], [0, 0, 0]]).isOk = true := by
  rw [init_from_box_matrix_binding, if_pos]
  · rfl
  · refine ⟨rfl, ?_⟩
    intro row hrow
    simp only [List.mem_cons, List.not_mem_nil, or_false] at hrow
    rcases hrow with h | h | h <;> subst h <;> rfl

/-- Claim C8 (amended): the `init_from_box_matrix` binding validates shape
only: it succeeds exactly when the input is a 3x3 array, and raises a
runtime error otherwise; zero-norm columns and out-of-range acos ratios
are accepted silently (storing NaN lengths/angles in the C code). -/
theorem c8_amended (m : List (List ℝ)) :
    ((init_from_box_matrix_binding m).isOk = true ↔
      (m.length = 3 ∧ ∀ row ∈ m, row.length = 3)) ∧
    ((∃ e, init_from_box_matrix_binding m = .error e) ↔
      ¬(m.length = 3 ∧ ∀ row ∈ m, row.length = 3)) := by
  rw [init_from_box_matrix_binding]
  split
  · next h =>
    refine ⟨⟨fun _ => h, fun _ => rfl⟩, ⟨fun hex => ?_, fun hn => absurd h hn⟩⟩
    obtain ⟨e, he⟩ := hex
    exact absurd he (by simp)
  · next h =>
    refine ⟨⟨fun hok => ?_, fun hc => absurd hc h⟩,
      ⟨fun _ => h, fun _ => ⟨_, rfl⟩⟩⟩
    simp [Except.isOk, Except.toBool] at hok

/-- Claim C9: each per-field setter writes only its own entry of the
stored lengths or angles, each bulk setter replaces only its own array,
and no setter touches the basis matrix, so after mutation the matrix and
the lengths/angles can diverge until reconstruction. -/
theorem c9_setters_frame (cell : Cell) (v : ℝ) (w : Fin 3 → ℝ)
    (M : Matrix (Fin 3) (Fin 3) ℝ) :
    ((set_x cell v).box_matrix = cell.box_matrix ∧
      (set_x cell v).box_angles = cell.box_angles ∧
      (set_x cell v).box_lengths 0 = v ∧
      (set_x cell v).box_lengths 1 = cell.box_lengths 1 ∧
      (set_x cell v).box_lengths 2 = cell.box_lengths 2) ∧
    ((set_y cell v).box_matrix = cell.box_matrix ∧
      (set_y cell v).box_angles = cell.box_angles ∧
      (set_y cell v).box_lengths 1 = v ∧
      (set_y cell v).box_lengths 0 = cell.box_lengths 0 ∧
      (set_y cell v).box_lengths 2 = cell.box_lengths 2) ∧
    ((set_z cell v).box_matrix = cell.box_matrix ∧
      (set_z cell v).box_angles = cell.box_angles ∧
      (set_z cell v).box_lengths 2 = v ∧
      (set_z cell v).box_lengths 0 = cell.box_lengths 0 ∧
      (set_z cell v).box_lengths 1 = cell.box_lengths 1) ∧
    ((set_alpha cell v).box_matrix = cell.box_matrix ∧
      (set_alpha cell v).box_lengths = cell.box_lengths ∧
      (set_alpha cell v).box_angles 0 = v ∧
      (set_alpha cell v).box_angles 1 = cell.box_angles 1 ∧
      (set_alpha cell v).box_angles 2 = cell.box_angles 2) ∧
    ((set_beta cell v).box_matrix = cell.box_matrix ∧
      (set_beta cell v).box_lengths = cell.box_lengths ∧
      (set_beta cell v).box_angles 1 = v ∧
      (set_beta cell v).box_angles 0 = cell.box_angles 0 ∧
      (set_beta cell v).box_angles 2 = cell.box_angles 2) ∧
    ((set_gamma cell v).box_matrix = cell.box_matrix ∧
      (set_gamma cell v).box_lengths = cell.box_lengths ∧
      (set_gamma cell v).box_angles 2 = v ∧
      (set_gamma cell v).box_angles 0 = cell.box_angles 0 ∧
      (set_gamma cell v).box_angles 1 = cell.box_angles 1) ∧
    ((set_box_lengths cell w).box_matrix = cell.box_matrix ∧
      (set_box_lengths cell w).box_angles = cell.box_angles ∧
      (set_box_lengths cell w).box_lengths = w) ∧
    ((set_box_angles cell w).box_matrix = cell.box_matrix ∧
      (set_box_angles cell w).box_lengths = cell.box_lengths ∧
      (set_box_angles cell w).box_angles = w) ∧
    ((set_box_matrix cell M).box_lengths = cell.box_lengths ∧
      (set_box_matrix cell M).box_angles = cell.box_angles ∧
      (set_box_matrix cell M).box_matrix = M) := by
  refine ⟨⟨rfl, rfl, ?_, ?_, ?_⟩, ⟨rfl, rfl, ?_, ?_, ?_⟩, ⟨rfl, rfl, ?_, ?_, ?_⟩,
    ⟨rfl, rfl, ?_, ?_, ?_⟩, ⟨rfl, rfl, ?_, ?_, ?_⟩, ⟨rfl, rfl, ?_, ?_, ?_⟩,
    ⟨rfl, rfl, rfl⟩, ⟨rfl, rfl, rfl⟩, ⟨rfl, rfl, rfl⟩⟩ <;>
    simp [set_x, set_y, set_z, set_alpha, set_beta, set_gamma,
      Function.update]

/-- The volume of a cell built with 90-degree angles is the product of its
lengths. -/
lemma volume_mkCell_ortho (a b c : ℝ) :
    volume (mkCell a b c 90 90 90) = a * b * c := by
  have hM : (mkCell a b c 90 90 90).box_matrix =
      Matrix.of ![![a, 0, 0], ![0, b, 0], ![0, 0, c]] :=
    setup_box_matrix_ortho a b c
  simp [volume, hM]

/-- `FLT_MAX` is positive. -/
lemma fltMax_pos : (0 : ℝ) < fltMax := by
  norm_num [fltMax]

/-- The cube of the sentinel default length is `FLT_MAX * 0.99^3`. -/
lemma sentinelLength_cubed :
    sentinelLength * sentinelLength * sentinelLength =
      fltMax * (0.99 * 0.99 * 0.99) := by
  have h3 : (fltMax ^ ((1 : ℝ) / 3)) ^ (3 : ℕ) = fltMax := by
    rw [← Real.rpow_natCast (fltMax ^ ((1 : ℝ) / 3)) 3,
      ← Real.rpow_mul fltMax_pos.le]
    norm_num
  calc sentinelLength * sentinelLength * sentinelLength
      = (fltMax ^ ((1 : ℝ) / 3)) ^ (3 : ℕ) * (0.99 * 0.99 * 0.99) := by
        rw [sentinelLength]; ring
    _ = fltMax * (0.99 * 0.99 * 0.99) := by rw [h3]

/-- The sentinel default cell is classified vacuum by the float-variant
check: its volume `FLT_MAX * 0.99^3` exceeds `FLT_MAX * 0.99^4`. -/
lemma sentinelDefaultCell_vacuum : is_vacuum_sentinel sentinelDefaultCell := by
  show volume sentinelDefaultCell > fltMax * 0.99 * 0.99 * 0.99 * 0.99
  rw [sentinelDefaultCell, volume_mkCell_ortho, sentinelLength_cubed]
  nlinarith [fltMax_pos]

/-- Claim C10: the no-argument double-variant constructor zero-initializes
everything, so its volume is 0 and `is_vacuum()` holds; the float-variant
pybind defaults build a box of edge `cbrt(FLT_MAX)*0.99`, whose volume
`FLT_MAX*0.99^3` exceeds the vacuum threshold `FLT_MAX*0.99^4`, so the
sentinel `is_vacuum()` holds as well. -/
theorem c10_default_cells_are_vacuum :
    volume defaultCell = 0 ∧ is_vacuum defaultCell ∧
      is_vacuum_sentinel sentinelDefaultCell := by
  have h : volume defaultCell = 0 := by
    simp [volume, defaultCell]
  exact ⟨h, h, sentinelDefaultCell_vacuum⟩

/-- Claim C6: `isclose` returns true for any two cells that are both
classified vacuum, for every `rtol` and `atol`, regardless of the stored
lengths and angles: the vacuum short-circuit fires before any field is
compared. -/
theorem c6_vacuum_isclose (c1 c2 : Cell) (h1 : is_vacuum_sentinel c1)
    (h2 : is_vacuum_sentinel c2) (rtol atol : ℝ) :
    isclose c1 c2 rtol atol :=
  Or.inl ⟨h1, h2⟩

/-- Witness for C6: two vacuum boxes with different stored lengths compare
close even under zero tolerances. -/
theorem c6_vacuum_isclose_witness :
    is_vacuum_sentinel (mkCell (2 ^ 127) (2 ^ 127) (2 ^ 127) 90 90 90) ∧
      is_vacuum_sentinel (mkCell (2 ^ 128) (2 ^ 127) (2 ^ 127) 90 90 90) ∧
      isclose (mkCell (2 ^ 127) (2 ^ 127) (2 ^ 127) 90 90 90)
        (mkCell (2 ^ 128) (2 ^ 127) (2 ^ 127) 90 90 90) 0 0 := by
  have h1 : is_vacuum_sentinel (mkCell (2 ^ 127) (2 ^ 127) (2 ^ 127) 90 90 90) := by
    show volume _ > _
    rw [volume_mkCell_ortho]
    norm_num [fltMax]
  have h2 : is_vacuum_sentinel (mkCell (2 ^ 128) (2 ^ 127) (2 ^ 127) 90 90 90) := by
    show volume _ > _
    rw [volume_mkCell_ortho]
    norm_num [fltMax]
  exact ⟨h1, h2, c6_vacuum_isclose _ _ h1 h2 0 0⟩

end PQCell

namespace PQCell

/-- The sentinel default length is positive. -/
lemma sentinelLength_pos : (0 : ℝ) < sentinelLength := by
  rw [sentinelLength]
  have := Real.rpow_pos_of_pos fltMax_pos ((1 : ℝ) / 3)
  nlinarith

/-- The sentinel default length exceeds 6. -/
lemma sentinelLength_gt_six : (6 : ℝ) < sentinelLength := by
  have h7 : ((7 : ℝ) ^ (3 : ℕ)) ^ ((1 : ℝ) / 3) = 7 := by
    rw [← Real.rpow_natCast (7 : ℝ) 3, ← Real.rpow_mul (by norm_num)]
    norm_num
  have hle : ((7 : ℝ) ^ (3 : ℕ)) ≤ fltMax := by norm_num [fltMax]
  have hmono : ((7 : ℝ) ^ (3 : ℕ)) ^ ((1 : ℝ) / 3) ≤ fltMax ^ ((1 : ℝ) / 3) :=
    Real.rpow_le_rpow (by positivity) hle (by norm_num)
  rw [h7] at hmono
  rw [sentinelLength]
  nlinarith

/-- Claim C7: re-imaging on a vacuum cell is claimed to return the
positions unchanged.  On the double-variant default cell (all fields
zero, hence vacuum) the general path multiplies every position by the
zero matrix, so the batch [(1,2,3)] is mapped to [(0,0,0)], not passed
through. -/
theorem c7_counterexample :
    is_vacuum defaultCell ∧
      image defaultCell [![1, 2, 3]] = [![(0 : ℝ), 0, 0]] ∧
      image defaultCell [![1, 2, 3]] ≠ [![(1 : ℝ), 2, 3]] := by
  have hvac : is_vacuum defaultCell := by
    simp [is_vacuum, volume, defaultCell]
  have hno : ¬ is_orthorhombic defaultCell := by
    intro h
    have h0 := h.1
    simp [defaultCell] at h0
  have himg : image defaultCell [![1, 2, 3]] = [![(0 : ℝ), 0, 0]] := by
    rw [image, if_neg hno]
    have hgen : image_general defaultCell.box_matrix ![1, 2, 3] =
        ![(0 : ℝ), 0, 0] := by
      funext j
      fin_cases j <;>
        simp [image_general, defaultCell, Fin.sum_univ_three, cround_zero]
    simp [hgen]
  refine ⟨hvac, himg, ?_⟩
  rw [himg]
  intro h
  have h1 : (![(0 : ℝ), 0, 0]) = ![(1 : ℝ), 2, 3] := by simpa using h
  have h2 := congrFun h1 0
  simp at h2

/-- Claim C7 (amended): on the sentinel (float-variant) vacuum default
cell, whose edge is `cbrt(FLT_MAX)*0.99` with 90-degree angles, re-imaging
is a pass-through for every batch whose components are smaller than half
the box edge in absolute value (`round` of each tiny scaled coordinate is
zero); it is total (never a hard failure), but on the double-variant
zero-matrix vacuum cell it collapses every batch to zeros instead of
passing it through. -/
theorem c7_amended (P : List (Fin 3 → ℝ))
    (hP : ∀ p ∈ P, ∀ j, |p j| < sentinelLength / 2) :
    is_vacuum_sentinel sentinelDefaultCell ∧
      image sentinelDefaultCell P = P := by
  refine ⟨sentinelDefaultCell_vacuum, ?_⟩
  rw [sentinelDefaultCell, image_mkCell_ortho]
  conv_rhs => rw [← List.map_id P]
  refine List.map_congr_left ?_
  intro p hp
  funext j
  have hsl := sentinelLength_pos
  have hj : (![sentinelLength, sentinelLength, sentinelLength] :
      Fin 3 → ℝ) j = sentinelLength := by
    fin_cases j <;> rfl
  have habs : |p j / sentinelLength| < 1 / 2 := by
    rw [abs_div, abs_of_pos hsl, div_lt_iff₀ hsl]
    have := hP p hp j
    nlinarith
  simp only [image_ortho, id_eq, hj]
  rw [cround_eq_zero habs]
  simp

/-- Witness for C7 (amended): the batch [(1, 2, 3)] is far inside the
sentinel box and passes through unchanged. -/
theorem c7_amended_witness :
    (∀ p ∈ [![(1 : ℝ), 2, 3]], ∀ j, |p j| < sentinelLength / 2) ∧
      is_vacuum_sentinel sentinelDefaultCell ∧
      image sentinelDefaultCell [![(1 : ℝ), 2, 3]] = [![(1 : ℝ), 2, 3]] := by
  have h6 := sentinelLength_gt_six
  have hP : ∀ p ∈ [![(1 : ℝ), 2, 3]], ∀ j, |p j| < sentinelLength / 2 := by
    intro p hp j
    simp only [List.mem_singleton] at hp
    subst hp
    fin_cases j
    · show |(1 : ℝ)| < sentinelLength / 2
      rw [abs_of_pos (by norm_num : (0 : ℝ) < 1)]
      linarith
    · show |(2 : ℝ)| < sentinelLength / 2
      rw [abs_of_pos (by norm_num : (0 : ℝ) < 2)]
      linarith
    · show |(3 : ℝ)| < sentinelLength / 2
      rw [abs_of_pos (by norm_num : (0 : ℝ) < 3)]
      linarith
  exact ⟨hP, (c7_amended _ hP).1, (c7_amended _ hP).2⟩

end PQCell

namespace PQCell

/-- Column norms and column dot products of the triclinic basis matrix, as
pure identities over the cosines and sines: the three column norms are the
three lengths, and the dot products reduce to `b*c*cos(alpha)`,
`a*c*cos(beta)` and `a*b*cos(gamma)`. -/
lemma roundtrip_aux (a b c ca cb cg sb sg s : ℝ)
    (ha : 0 < a) (hb : 0 < b) (hc : 0 < c)
    (hsg : sg ≠ 0)
    (hpy_b : sb * sb + cb * cb = 1)
    (hpy_g : sg * sg + cg * cg = 1)
    (hs0 : 0 ≤ s)
    (hs : s = sb * sb - (ca - cb * cg) * (ca - cb * cg) / (sg * sg)) :
    Real.sqrt (a * a + 0 * 0 + 0 * 0) = a ∧
    Real.sqrt (b * cg * (b * cg) + b * sg * (b * sg) + 0 * 0) = b ∧
    Real.sqrt (c * cb * (c * cb) +
      c * (ca - cb * cg) / sg * (c * (ca - cb * cg) / sg) +
      c * Real.sqrt s * (c * Real.sqrt s)) = c ∧
    b * cg * (c * cb) + b * sg * (c * (ca - cb * cg) / sg) +
      0 * (c * Real.sqrt s) = b * c * ca ∧
    a * (c * cb) + 0 * (c * (ca - cb * cg) / sg) + 0 * (c * Real.sqrt s) =
      a * c * cb ∧
    a * (b * cg) + 0 * (b * sg) + 0 * 0 = a * b * cg := by
  have hss : Real.sqrt s * Real.sqrt s = s := Real.mul_self_sqrt hs0
  refine ⟨?_, ?_, ?_, ?_, by ring, by ring⟩
  · have h1 : a * a + 0 * 0 + 0 * 0 = a * a := by ring
    rw [h1, Real.sqrt_mul_self ha.le]
  · have h1 : b * cg * (b * cg) + b * sg * (b * sg) + 0 * 0 = b * b := by
      linear_combination (b * b) * hpy_g
    rw [h1, Real.sqrt_mul_self hb.le]
  · have h1 : c * Real.sqrt s * (c * Real.sqrt s) = c * c * s := by
      calc c * Real.sqrt s * (c * Real.sqrt s)
          = c * c * (Real.sqrt s * Real.sqrt s) := by ring
        _ = c * c * s := by rw [hss]
    have h2 : c * cb * (c * cb) +
        c * (ca - cb * cg) / sg * (c * (ca - cb * cg) / sg) +
        c * Real.sqrt s * (c * Real.sqrt s) = c * c := by
      rw [h1, hs]
      field_simp
      linear_combination (c * c * (sg * sg)) * hpy_b
    rw [h2, Real.sqrt_mul_self hc.le]
  · field_simp
    ring

end PQCell

namespace PQCell

/-- Claim C5: constructing a cell from valid lengths and angles and feeding
its basis matrix back through `init_from_box_matrix` reproduces the
original lengths and angles exactly (in exact real arithmetic; a fortiori
within the 1e-6 relative tolerance the spec allows).  Validity is positive
lengths, angles strictly between 0 and 180 degrees, and a non-negative
argument of the square root in the (2,2) entry (the triclinic
compatibility condition; without it the C code takes `sqrt` of a negative
number and produces NaN). -/
theorem c5_roundtrip (a b c al be ga : ℝ)
    (ha : 0 < a) (hb : 0 < b) (hc : 0 < c)
    (hal0 : 0 < al) (hal1 : al < 180)
    (hbe0 : 0 < be) (hbe1 : be < 180)
    (hga0 : 0 < ga) (hga1 : ga < 180)
    (hval : 0 ≤ Real.sin (deg2rad be) * Real.sin (deg2rad be) -
      (Real.cos (deg2rad al) - Real.cos (deg2rad be) * Real.cos (deg2rad ga)) *
        (Real.cos (deg2rad al) - Real.cos (deg2rad be) * Real.cos (deg2rad ga)) /
        (Real.sin (deg2rad ga) * Real.sin (deg2rad ga))) :
    (init_from_box_matrix (mkCell a b c al be ga).box_matrix).box_lengths =
        ![a, b, c] ∧
      (init_from_box_matrix (mkCell a b c al be ga).box_matrix).box_angles =
        ![al, be, ga] := by
  have hpi := Real.pi_pos
  have hrad : ∀ x : ℝ, 0 < x → x < 180 →
      0 < deg2rad x ∧ deg2rad x < Real.pi := by
    intro x h0 h1
    rw [deg2rad]
    constructor
    · have hx : 0 < x / 180 := by positivity
      exact mul_pos hx hpi
    · have hx : x / 180 < 1 := by
        rw [div_lt_one (by norm_num)]
        exact h1
      nlinarith
  obtain ⟨hal0r, hal1r⟩ := hrad al hal0 hal1
  obtain ⟨hbe0r, hbe1r⟩ := hrad be hbe0 hbe1
  obtain ⟨hga0r, hga1r⟩ := hrad ga hga0 hga1
  have hsg : 0 < Real.sin (deg2rad ga) :=
    Real.sin_pos_of_pos_of_lt_pi hga0r hga1r
  have hsgne : Real.sin (deg2rad ga) ≠ 0 := ne_of_gt hsg
  have hpyb : Real.sin (deg2rad be) * Real.sin (deg2rad be) +
      Real.cos (deg2rad be) * Real.cos (deg2rad be) = 1 := by
    have h := Real.sin_sq_add_cos_sq (deg2rad be)
    nlinarith [h]
  have hpyg : Real.sin (deg2rad ga) * Real.sin (deg2rad ga) +
      Real.cos (deg2rad ga) * Real.cos (deg2rad ga) = 1 := by
    have h := Real.sin_sq_add_cos_sq (deg2rad ga)
    nlinarith [h]
  obtain ⟨hL0, hL1, hL2, hn0, hn1, hn2⟩ :=
    roundtrip_aux a b c (Real.cos (deg2rad al)) (Real.cos (deg2rad be))
      (Real.cos (deg2rad ga)) (Real.sin (deg2rad be)) (Real.sin (deg2rad ga))
      (Real.sin (deg2rad be) * Real.sin (deg2rad be) -
        (Real.cos (deg2rad al) -
            Real.cos (deg2rad be) * Real.cos (deg2rad ga)) *
          (Real.cos (deg2rad al) -
            Real.cos (deg2rad be) * Real.cos (deg2rad ga)) /
          (Real.sin (deg2rad ga) * Real.sin (deg2rad ga)))
      ha hb hc hsgne hpyb hpyg hval rfl
  generalize hMdef : (mkCell a b c al be ga).box_matrix = M
  have e00 : M 0 0 = a := by
    rw [← hMdef]; simp [mkCell, setup_box_matrix, Matrix.vecHead, Matrix.vecTail]
  have e01 : M 0 1 = b * Real.cos (deg2rad ga) := by
    rw [← hMdef]; simp [mkCell, setup_box_matrix, Matrix.vecHead, Matrix.vecTail]
  have e02 : M 0 2 = c * Real.cos (deg2rad be) := by
    rw [← hMdef]; simp [mkCell, setup_box_matrix, Matrix.vecHead, Matrix.vecTail]
  have e10 : M 1 0 = 0 := by
    rw [← hMdef]; simp [mkCell, setup_box_matrix, Matrix.vecHead, Matrix.vecTail]
  have e11 : M 1 1 = b * Real.sin (deg2rad ga) := by
    rw [← hMdef]; simp [mkCell, setup_box_matrix, Matrix.vecHead, Matrix.vecTail]
  have e12 : M 1 2 = c * (Real.cos (deg2rad al) -
      Real.cos (deg2rad be) * Real.cos (deg2rad ga)) /
      Real.sin (deg2rad ga) := by
    rw [← hMdef]; simp [mkCell, setup_box_matrix, Matrix.vecHead, Matrix.vecTail]
  have e20 : M 2 0 = 0 := by
    rw [← hMdef]; simp [mkCell, setup_box_matrix, Matrix.vecHead, Matrix.vecTail]
  have e21 : M 2 1 = 0 := by
    rw [← hMdef]; simp [mkCell, setup_box_matrix, Matrix.vecHead, Matrix.vecTail]
  have e22 : M 2 2 = c * Real.sqrt
      (Real.sin (deg2rad be) * Real.sin (deg2rad be) -
        (Real.cos (deg2rad al) -
            Real.cos (deg2rad be) * Real.cos (deg2rad ga)) *
          (Real.cos (deg2rad al) -
            Real.cos (deg2rad be) * Real.cos (deg2rad ga)) /
          (Real.sin (deg2rad ga) * Real.sin (deg2rad ga))) := by
    rw [← hMdef]; simp [mkCell, setup_box_matrix, Matrix.vecHead, Matrix.vecTail]
  have hbne : b ≠ 0 := ne_of_gt hb
  have hcne : c ≠ 0 := ne_of_gt hc
  have hane : a ≠ 0 := ne_of_gt ha
  constructor
  · funext j
    fin_cases j
    · show Real.sqrt (M 0 0 * M 0 0 + M 1 0 * M 1 0 + M 2 0 * M 2 0) = a
      rw [e00, e10, e20]
      exact hL0
    · show Real.sqrt (M 0 1 * M 0 1 + M 1 1 * M 1 1 + M 2 1 * M 2 1) = b
      rw [e01, e11, e21]
      exact hL1
    · show Real.sqrt (M 0 2 * M 0 2 + M 1 2 * M 1 2 + M 2 2 * M 2 2) = c
      rw [e02, e12, e22]
      exact hL2
  · funext j
    fin_cases j
    · show Real.arccos ((M 0 1 * M 0 2 + M 1 1 * M 1 2 + M 2 1 * M 2 2) /
          (Real.sqrt (M 0 1 * M 0 1 + M 1 1 * M 1 1 + M 2 1 * M 2 1) *
            Real.sqrt (M 0 2 * M 0 2 + M 1 2 * M 1 2 + M 2 2 * M 2 2))) *
          180 / Real.pi = al
      rw [e01, e02, e11, e12, e21, e22, hL1, hL2, hn0]
      have hq : b * c * Real.cos (deg2rad al) / (b * c) =
          Real.cos (deg2rad al) := by
        field_simp
      rw [hq, Real.arccos_cos hal0r.le hal1r.le, deg2rad]
      field_simp
    · show Real.arccos ((M 0 0 * M 0 2 + M 1 0 * M 1 2 + M 2 0 * M 2 2) /
          (Real.sqrt (M 0 0 * M 0 0 + M 1 0 * M 1 0 + M 2 0 * M 2 0) *
            Real.sqrt (M 0 2 * M 0 2 + M 1 2 * M 1 2 + M 2 2 * M 2 2))) *
          180 / Real.pi = be
      rw [e00, e02, e10, e12, e20, e22, hL0, hL2, hn1]
      have hq : a * c * Real.cos (deg2rad be) / (a * c) =
          Real.cos (deg2rad be) := by
        field_simp
      rw [hq, Real.arccos_cos hbe0r.le hbe1r.le, deg2rad]
      field_simp
    · show Real.arccos ((M 0 0 * M 0 1 + M 1 0 * M 1 1 + M 2 0 * M 2 1) /
          (Real.sqrt (M 0 0 * M 0 0 + M 1 0 * M 1 0 + M 2 0 * M 2 0) *
            Real.sqrt (M 0 1 * M 0 1 + M 1 1 * M 1 1 + M 2 1 * M 2 1))) *
          180 / Real.pi = ga
      rw [e00, e01, e10, e11, e20, e21, hL0, hL1, hn2]
      have hq : a * b * Real.cos (deg2rad ga) / (a * b) =
          Real.cos (deg2rad ga) := by
        field_simp
      rw [hq, Real.arccos_cos hga0r.le hga1r.le, deg2rad]
      field_simp

/-- Witness for C5 at the cell (1, 2, 3, 90, 90, 90). -/
theorem c5_roundtrip_witness :
    (0 ≤ Real.sin (deg2rad 90) * Real.sin (deg2rad 90) -
      (Real.cos (deg2rad 90) - Real.cos (deg2rad 90) * Real.cos (deg2rad 90)) *
        (Real.cos (deg2rad 90) - Real.cos (deg2rad 90) * Real.cos (deg2rad 90)) /
        (Real.sin (deg2rad 90) * Real.sin (deg2rad 90))) ∧
    (init_from_box_matrix (mkCell 1 2 3 90 90 90).box_matrix).box_lengths =
      ![1, 2, 3] ∧
    (init_from_box_matrix (mkCell 1 2 3 90 90 90).box_matrix).box_angles =
      ![90, 90, 90] := by
  have hval : 0 ≤ Real.sin (deg2rad 90) * Real.sin (deg2rad 90) -
      (Real.cos (deg2rad 90) - Real.cos (deg2rad 90) * Real.cos (deg2rad 90)) *
        (Real.cos (deg2rad 90) - Real.cos (deg2rad 90) * Real.cos (deg2rad 90)) /
        (Real.sin (deg2rad 90) * Real.sin (deg2rad 90)) := by
    rw [deg2rad_ninety]
    simp [Real.cos_pi_div_two, Real.sin_pi_div_two]
  have h := c5_roundtrip 1 2 3 90 90 90 (by norm_num) (by norm_num)
    (by norm_num) (by norm_num) (by norm_num) (by norm_num) (by norm_num)
    (by norm_num) (by norm_num) hval
  exact ⟨hval, h.1, h.2⟩

end PQCell
